import Mathlib

/-
Verification of the core mask-reconciliation and region-aggregation
algorithm of ciftify_meants (run_ciftify_meants, lines 190-237 of
ciftify/bin/ciftify_meants.py), shallowly embedded over rational-valued
dense arrays.  A 2-D numpy array of shape (samples, cols) is modelled as
a List of row lists; numpy row-major semantics of np.where, np.unique,
np.intersect1d, np.mean, np.std and np.average are modelled by the
correspondingly named definitions below.  Floating-point arithmetic is
modelled exactly over the rationals.
-/

namespace Meants

/-- Mean of one row across the timepoint axis (np.mean(data, axis=1) for one
row).  In the rationals, the empty row gives 0/0 = 0. -/
def rowMean (r : List ℚ) : ℚ := r.sum / r.length

/-- Population variance of one row, which is the square of np.std for that
row; since sqrt is strictly monotone on nonnegative reals, np.std r > 0 holds
exactly when popVar r > 0, so the source condition std_array > 0 (line 200)
is modelled as 0 < popVar. -/
def popVar (r : List ℚ) : ℚ := ((r.map (fun x => (x - rowMean r) ^ 2)).sum) / r.length

/-- Second component of the numpy shape of a rectangular 2-D array. -/
def shape1 (m : List (List ℚ)) : ℕ := (m.headD []).length

/-- np.where(np.std(data, axis=1) > 0)[0]  (lines 198, 200). -/
def stdNonzero (data : List (List ℚ)) : List ℕ :=
  (List.range data.length).filter (fun i => 0 < popVar (data.getD i []))

/-- np.where(np.mean(data, axis=1) != 0)[0]  (lines 199, 201). -/
def mNonzero (data : List (List ℚ)) : List ℕ :=
  (List.range data.length).filter (fun i => rowMean (data.getD i []) ≠ 0)

/-- np.intersect1d on index arrays whose first argument is sorted and
duplicate-free (as all index arrays produced by np.where and np.intersect1d
are): the sorted list of values common to both. -/
def intersect1d (xs ys : List ℕ) : List ℕ := xs.filter (fun x => x ∈ ys)

/-- np.unique: the ascending list of distinct values of the (flattened)
array. -/
def npUnique (xs : List ℚ) : List ℚ := List.insertionSort (· ≤ ·) xs.dedup

/-- np.where(mask_data > 0)[0] on a 2-D array: row indices of positive
entries, in row-major order (line 209). -/
def whereGtZeroRows (m : List (List ℚ)) : List ℕ :=
  ((List.range m.length).map
    (fun i => List.replicate ((m.getD i []).countP (fun x => decide (0 < x))) i)).flatten

/-- np.where(seed_data == roi)[0] on a 2-D array: row indices of entries
equal to roi, in row-major order (line 230). -/
def whereEqRows (m : List (List ℚ)) (v : ℚ) : List ℕ :=
  ((List.range m.length).map
    (fun i => List.replicate ((m.getD i []).count v) i)).flatten

/-- np.multiply on two same-shape 2-D arrays (line 211). -/
def multiply2 (a b : List (List ℚ)) : List (List ℚ) :=
  List.zipWith (List.zipWith (· * ·)) a b

/-- Lines 198-202: mask_indices = np.intersect1d(std_nonzero, m_nonzero),
the set of samples with positive standard deviation and nonzero mean. -/
def validIndices (data : List (List ℚ)) : List ℕ :=
  intersect1d (stdNonzero data) (mNonzero data)

/-- The reconciled valid-sample set: validIndices alone when no mask is
given, and validIndices further intersected with the positive-mask indices
(lines 209-210) when a mask is given. -/
def reconciled (data : List (List ℚ)) : Option (List (List ℚ)) → List ℕ
  | none => validIndices data
  | some m => intersect1d (validIndices data) (whereGtZeroRows m)

/-- The ways run_ciftify_meants aborts, in source order:
sys.exit at line 192 (func/seed sample counts differ); the AttributeError
raised at line 195 because logging.Logger has no WARNING attribute (the
code says logger.WARNING instead of logger.warning), so a seed with a
column count other than 1 crashes the run; sys.exit at line 208 (mask/seed
sample counts differ); sys.exit at line 212 (coarse masked-region check);
sys.exit at line 221 (requested roi label not found); the ZeroDivisionError
np.average raises at line 215 when the selected weights sum to zero; and the
UnboundLocalError at line 237 when the weighted branch was taken (rois was
never assigned) and an output-label file was requested. -/
inductive MeantsError where
  | funcSeedShapeMismatch
  | attributeError
  | maskSeedShapeMismatch
  | regionFullyMasked
  | unknownRegionLabel
  | zeroDivisionError
  | unboundLocalRois
deriving DecidableEq

/-- Observable outcome of one invocation: the content written to the
output csv (none when the run aborted before np.savetxt at line 235), the
content written to the output-labels file (none when not requested or not
reached), and the abort cause when the run did not finish cleanly.  A NaN
output row (np.mean over an empty selection) is modelled as a none row. -/
structure RunState where
  csv : Option (List (Option (List ℚ)))
  labels : Option (List ℚ)
  err : Option MeantsError
deriving DecidableEq

/-- Abort before anything was written. -/
def mkErr (e : MeantsError) : RunState := ⟨none, none, some e⟩

/-- np.mean(rows, axis=0): per-timepoint mean over the selected rows
(line 232); the empty selection yields a NaN row, modelled as none. -/
def npMeanRows (rows : List (List ℚ)) (tp : ℕ) : Option (List ℚ) :=
  if rows.isEmpty then none
  else some ((List.range tp).map
    (fun t => ((rows.map (fun r => r.getD t 0)).sum) / (rows.length : ℚ)))

/-- np.average(rows, axis=0, weights=w): per-timepoint weighted mean
(lines 215-216); callers must rule out a zero weight sum, on which
np.average raises ZeroDivisionError. -/
def npAverageRows (rows : List (List ℚ)) (w : List ℚ) (tp : ℕ) : List ℚ :=
  (List.range tp).map
    (fun t => (List.zipWith (fun r wi => wi * r.getD t 0) rows w).sum / w.sum)

/-- Lines 226-237 for the per-region branch: one output row per label in
rois, in order; row i is np.mean of the functional rows indexed by
np.intersect1d(mask_indices, np.where(seed_data == rois[i])[0]); then the
csv is written, and the label file when requested. -/
def finish (data seed_data : List (List ℚ)) (mask_indices : List ℕ)
    (rois : List ℚ) (outputlabels : Bool) : RunState :=
  let out_data := rois.map (fun roi =>
    let idx := whereEqRows seed_data roi
    let idxx := intersect1d mask_indices idx
    npMeanRows (idxx.map (fun i => data.getD i [])) (shape1 data))
  ⟨some out_data, if outputlabels then some rois else none, none⟩

/-- Lines 214-237: the aggregation stage.  In weighted mode a single row is
computed by np.average with weights np.ravel(seed_data[mask_indices]); the
csv is then written, after which a requested label file crashes on the
unassigned rois.  Otherwise the region labels are resolved (a requested
label is validated against np.unique(seed_data)[1:], line 220; else rois =
np.unique(seed_data)[1:], line 225) and the per-region rows are emitted. -/
def aggregate (data seed_data : List (List ℚ)) (mask_indices : List ℕ)
    (weighted : Bool) (roiLabel : Option ℚ) (outputlabels : Bool) : RunState :=
  if weighted then
    let w := (mask_indices.map (fun i => seed_data.getD i [])).flatten
    if w.sum = 0 then mkErr .zeroDivisionError
    else
      let row := npAverageRows (mask_indices.map (fun i => data.getD i [])) w (shape1 data)
      if outputlabels then ⟨some [some row], none, some .unboundLocalRois⟩
      else ⟨some [some row], none, none⟩
  else
    match roiLabel with
    | some r =>
      if r ∈ (npUnique seed_data.flatten).drop 1 then
        finish data seed_data mask_indices [r] outputlabels
      else mkErr .unknownRegionLabel
    | none =>
      finish data seed_data mask_indices ((npUnique seed_data.flatten).drop 1) outputlabels

/-- Lines 190-237 of run_ciftify_meants, starting from the loaded flat
arrays: the func/seed sample-count check (191-192), the seed column-count
check whose body crashes (194-195), the derivation of the valid-sample set
(198-202), the mask branch with its sample-count check, intersection and
coarse distinct-count check (204-212), and the aggregation stage (214-237).
The n_seeds count of line 206 is len(np.unique(seed_data)), all distinct
values including 0, compared with len(np.unique(np.multiply(seed_data,
mask_data))) at line 211. -/
def run (data seed_data : List (List ℚ)) (mask : Option (List (List ℚ)))
    (weighted : Bool) (roiLabel : Option ℚ) (outputlabels : Bool) : RunState :=
  if data.length ≠ seed_data.length then mkErr .funcSeedShapeMismatch
  else if shape1 seed_data ≠ 1 then mkErr .attributeError
  else
    match mask with
    | none => aggregate data seed_data (reconciled data none) weighted roiLabel outputlabels
    | some mask_data =>
      if seed_data.length ≠ mask_data.length then mkErr .maskSeedShapeMismatch
      else if (npUnique (multiply2 seed_data mask_data).flatten).length ≠
              (npUnique seed_data.flatten).length then
        mkErr .regionFullyMasked
      else aggregate data seed_data (reconciled data (some mask_data))
             weighted roiLabel outputlabels

/-- Seed value at sample i, reading the samples-by-1 seed array. -/
def seedVal (seed : List (List ℚ)) (i : ℕ) : ℚ := (seed.getD i []).getD 0 0

/-- Reference formula for the per-timepoint arithmetic mean of the
functional array over an index set. -/
def arithMeanSet (data : List (List ℚ)) (S : List ℕ) (tp : ℕ) : List ℚ :=
  (List.range tp).map
    (fun t => (S.map (fun i => (data.getD i []).getD t 0)).sum / (S.length : ℚ))

/-- Reference formula for the per-timepoint weighted mean of the functional
array over an index set, weighting sample i by its seed value. -/
def weightedMeanSet (data seed : List (List ℚ)) (S : List ℕ) (tp : ℕ) : List ℚ :=
  (List.range tp).map
    (fun t => (S.map (fun i => seedVal seed i * (data.getD i []).getD t 0)).sum /
      (S.map (fun i => seedVal seed i)).sum)

/-- The region-label list the per-region branch resolves: the singleton of a
requested label, else np.unique(seed_data)[1:]. -/
def selectedRois (seed : List (List ℚ)) : Option ℚ → List ℚ
  | some r => [r]
  | none => (npUnique seed.flatten).drop 1

/-- Conditions under which run reaches the aggregation stage of line 214:
matching func/seed sample counts (line 191), a one-column seed (line 194),
and, when a mask is given, matching mask/seed sample counts (line 207) and
agreeing distinct-value counts in the coarse check (line 211). -/
def guardsPass (data seed : List (List ℚ)) : Option (List (List ℚ)) → Prop
  | none => data.length = seed.length ∧ shape1 seed = 1
  | some m => data.length = seed.length ∧ shape1 seed = 1 ∧ seed.length = m.length ∧
      (npUnique (multiply2 seed m).flatten).length = (npUnique seed.flatten).length

theorem mem_intersect1d {x : ℕ} {xs ys : List ℕ} :
    x ∈ intersect1d xs ys ↔ x ∈ xs ∧ x ∈ ys := by
  simp [intersect1d]

theorem mem_validIndices {data : List (List ℚ)} {i : ℕ} :
    i ∈ validIndices data ↔
      i < data.length ∧ 0 < popVar (data.getD i []) ∧ rowMean (data.getD i []) ≠ 0 := by
  simp only [validIndices, mem_intersect1d, stdNonzero, mNonzero,
    List.mem_filter, List.mem_range, decide_eq_true_eq]
  tauto

theorem mem_whereGtZeroRows {m : List (List ℚ)} {i : ℕ} :
    i ∈ whereGtZeroRows m ↔ i < m.length ∧ ∃ x ∈ m.getD i [], 0 < x := by
  simp only [whereGtZeroRows, List.mem_flatten, List.mem_map, List.mem_range]
  constructor
  · rintro ⟨l, ⟨j, hj, rfl⟩, hi⟩
    rcases List.mem_replicate.mp hi with ⟨hc, rfl⟩
    refine ⟨hj, ?_⟩
    have := Nat.pos_of_ne_zero hc
    rcases List.countP_pos_iff.mp this with ⟨x, hx, hpx⟩
    exact ⟨x, hx, of_decide_eq_true hpx⟩
  · rintro ⟨hi, x, hx, hpx⟩
    refine ⟨List.replicate ((m.getD i []).countP (fun x => decide (0 < x))) i,
      ⟨i, hi, rfl⟩, ?_⟩
    apply List.mem_replicate.mpr
    refine ⟨Nat.pos_iff_ne_zero.mp ?_, rfl⟩
    exact List.countP_pos_iff.mpr ⟨x, hx, decide_eq_true hpx⟩

theorem mem_reconciled {data : List (List ℚ)} {mask : Option (List (List ℚ))} {i : ℕ} :
    i ∈ reconciled data mask ↔
      i ∈ validIndices data ∧ ∀ m ∈ mask, i ∈ whereGtZeroRows m := by
  cases mask with
  | none => simp [reconciled]
  | some m => simp [reconciled, mem_intersect1d]

theorem mem_reconciled_lt {data : List (List ℚ)} {mask : Option (List (List ℚ))} {i : ℕ}
    (h : i ∈ reconciled data mask) : i < data.length :=
  (mem_validIndices.mp (mem_reconciled.mp h).1).1

theorem npUnique_perm (xs : List ℚ) : List.Perm (npUnique xs) xs.dedup :=
  List.perm_insertionSort _ _

theorem mem_npUnique {x : ℚ} {xs : List ℚ} : x ∈ npUnique xs ↔ x ∈ xs := by
  rw [(npUnique_perm xs).mem_iff, List.mem_dedup]

theorem npUnique_nodup (xs : List ℚ) : (npUnique xs).Nodup :=
  (npUnique_perm xs).nodup_iff.mpr (List.nodup_dedup xs)

theorem npUnique_sorted (xs : List ℚ) : List.Pairwise (· ≤ ·) (npUnique xs) :=
  List.sorted_insertionSort _ _

theorem npUnique_strict_sorted (xs : List ℚ) : List.Pairwise (· < ·) (npUnique xs) :=
  ((npUnique_sorted xs).and (npUnique_nodup xs)).imp
    (fun h => lt_of_le_of_ne h.1 h.2)

theorem zipWith_map_eq {α β γ δ : Type} (f : α → β → γ) (g : δ → α) (h : δ → β)
    (l : List δ) : List.zipWith f (l.map g) (l.map h) = l.map (fun x => f (g x) (h x)) := by
  induction l with
  | nil => rfl
  | cons a l ih => simp [ih]

theorem flatten_map_singleton {α β : Type} (l : List α) (f : α → List β) (g : α → β)
    (h : ∀ i ∈ l, f i = [g i]) : (l.map f).flatten = l.map g := by
  induction l with
  | nil => rfl
  | cons a l ih =>
    simp only [List.map_cons, List.flatten_cons, h a (List.mem_cons_self a l)]
    rw [ih (fun i hi => h i (List.mem_cons_of_mem a hi))]
    rfl

theorem getD_map {α β : Type} (d : β) (f : α → β) (dflt : α) (l : List α) (i : ℕ)
    (hi : i < l.length) : (l.map f).getD i d = f (l.getD i dflt) := by
  rw [List.getD_eq_getElem _ _ (by simpa using hi), List.getD_eq_getElem _ _ hi,
    List.getElem_map]

theorem npMeanRows_eq_arithMeanSet (data : List (List ℚ)) (S : List ℕ) (tp : ℕ)
    (h : S ≠ []) :
    npMeanRows (S.map (fun i => data.getD i [])) tp = some (arithMeanSet data S tp) := by
  unfold npMeanRows arithMeanSet
  rw [if_neg (by simpa [List.isEmpty_iff] using h)]
  simp [List.map_map, Function.comp_def]

theorem npMeanRows_eq_none_iff (rows : List (List ℚ)) (tp : ℕ) :
    npMeanRows rows tp = none ↔ rows = [] := by
  unfold npMeanRows
  split
  · simp_all [List.isEmpty_iff]
  · simp_all [List.isEmpty_iff]

/-- When the guard conditions hold, run reduces to the aggregation stage on
the reconciled valid-sample set. -/
theorem run_reaches_aggregate (data seed : List (List ℚ))
    (mask : Option (List (List ℚ))) (w : Bool) (rl : Option ℚ) (ol : Bool)
    (h : guardsPass data seed mask) :
    run data seed mask w rl ol = aggregate data seed (reconciled data mask) w rl ol := by
  cases mask with
  | none =>
    obtain ⟨h1, h2⟩ := h
    simp [run, h1, h2]
  | some m =>
    obtain ⟨h1, h2, h3, h4⟩ := h
    simp [run, h1, h2, h3, h4]

/-- The aggregation stage never raises the coarse masked-region error; that
error comes only from line 212. -/
theorem aggregate_err_ne_regionFullyMasked (data seed : List (List ℚ))
    (mi : List ℕ) (w : Bool) (rl : Option ℚ) (ol : Bool) :
    (aggregate data seed mi w rl ol).err ≠ some .regionFullyMasked := by
  unfold aggregate
  dsimp only
  split
  · split
    · simp [mkErr]
    · split <;> simp
  · split
    · split
      · simp [finish]
      · simp [mkErr]
    · simp [finish]

theorem guardsPass_len {data seed : List (List ℚ)} {mask : Option (List (List ℚ))}
    (h : guardsPass data seed mask) : data.length = seed.length := by
  cases mask with
  | none => exact h.1
  | some m => exact h.1

/-- Unfolding of the weighted branch of the aggregation stage. -/
theorem aggregate_weighted (data seed : List (List ℚ)) (mi : List ℕ)
    (rl : Option ℚ) (ol : Bool) :
    aggregate data seed mi true rl ol =
      (if ((mi.map (fun i => seed.getD i [])).flatten).sum = 0 then
        mkErr .zeroDivisionError
      else
        if ol then
          ⟨some [some (npAverageRows (mi.map (fun i => data.getD i []))
            ((mi.map (fun i => seed.getD i [])).flatten) (shape1 data))], none,
            some .unboundLocalRois⟩
        else
          ⟨some [some (npAverageRows (mi.map (fun i => data.getD i []))
            ((mi.map (fun i => seed.getD i [])).flatten) (shape1 data))], none, none⟩) :=
  rfl

/-- C3: the reconciled valid-sample set is exactly the set of sample indices
with positive standard deviation (modelled as positive population variance,
an equivalent condition) and nonzero mean, intersected with the indices of
positive mask value when a mask is supplied, and exactly the std/mean
filtered set when no mask is supplied.  The hypothesis records that the mask
array, when present, is a samples-by-1 array aligned with the functional
array, as in the data model. -/
theorem c3_reconciled_valid_sample_set (data : List (List ℚ))
    (mask : Option (List (List ℚ))) (i : ℕ)
    (hm : ∀ m ∈ mask, m.length = data.length ∧ ∀ r ∈ m, r.length = 1) :
    i ∈ reconciled data mask ↔
      (i < data.length ∧ 0 < popVar (data.getD i []) ∧ rowMean (data.getD i []) ≠ 0 ∧
        ∀ m ∈ mask, 0 < (m.getD i []).getD 0 0) := by
  rw [mem_reconciled, mem_validIndices]
  constructor
  · rintro ⟨⟨h1, h2, h3⟩, h4⟩
    refine ⟨h1, h2, h3, fun m hmem => ?_⟩
    obtain ⟨hlen, hrows⟩ := hm m hmem
    obtain ⟨hil, x, hx, hpx⟩ := mem_whereGtZeroRows.mp (h4 m hmem)
    have hrow : (m.getD i []).length = 1 := by
      refine hrows _ ?_
      rw [List.getD_eq_getElem _ _ hil]
      exact List.getElem_mem hil
    obtain ⟨a, ha⟩ := List.length_eq_one.mp hrow
    rw [ha] at hx ⊢
    simp only [List.mem_singleton] at hx
    subst hx
    simpa using hpx
  · rintro ⟨h1, h2, h3, h4⟩
    refine ⟨⟨h1, h2, h3⟩, fun m hmem => ?_⟩
    obtain ⟨hlen, hrows⟩ := hm m hmem
    have hil : i < m.length := by rw [hlen]; exact h1
    refine mem_whereGtZeroRows.mpr ⟨hil, ?_⟩
    have hrow : (m.getD i []).length = 1 := by
      refine hrows _ ?_
      rw [List.getD_eq_getElem _ _ hil]
      exact List.getElem_mem hil
    obtain ⟨a, ha⟩ := List.length_eq_one.mp hrow
    refine ⟨(m.getD i []).getD 0 0, ?_, h4 m hmem⟩
    rw [ha]
    simp

/-- Witness for C3: sample 0 of a concrete masked input is in the
reconciled set. -/
theorem c3_witness : (0 : ℕ) ∈ reconciled [[(2:ℚ), 6]] (some [[1]]) := by
  refine (c3_reconciled_valid_sample_set [[(2:ℚ), 6]] (some [[1]]) 0 ?_).mpr ?_
  · intro m hmem
    have hme := Option.mem_def.mp hmem
    have heq := Option.some.inj hme.symm
    subst heq
    exact ⟨rfl, by intro r hr; simp only [List.mem_singleton] at hr; simp [hr]⟩
  · refine ⟨by decide, ?_, ?_, ?_⟩
    · exact of_decide_eq_true (by with_unfolding_all rfl)
    · exact of_decide_eq_true (by with_unfolding_all rfl)
    · intro m hmem
      have hme := Option.mem_def.mp hmem
      have heq := Option.some.inj hme.symm
      subst heq
      exact of_decide_eq_true (by with_unfolding_all rfl)

/-- C9 counterexample: removing a degenerate sample (sample 1, constant time
series, so std = 0) changes the output: with it present the region list is
[1, 2] and the row for label 1 is NaN; with it removed the region list is
[2] alone, so the two csv outputs differ. -/
theorem c9_counterexample :
    popVar ([[(0:ℚ), 0], [5, 5], [1, 3]].getD 1 []) = 0 ∧
    (run [[(0:ℚ), 0], [5, 5], [1, 3]] [[0], [1], [2]] none false none false).csv ≠
      (run [[(0:ℚ), 0], [1, 3]] [[0], [2]] none false none false).csv :=
  of_decide_eq_true (by with_unfolding_all rfl)

/-- C9 amended: a sample whose time series has zero standard deviation or
zero mean is excluded from the reconciled valid-sample set and hence from
every per-region or weighted selection, so it never contributes numerically
to any aggregate; removal however may still change the label list computed
by np.unique, so full output preservation does not hold. -/
theorem c9_degenerate_sample_excluded (data : List (List ℚ))
    (mask : Option (List (List ℚ))) (i : ℕ)
    (h : popVar (data.getD i []) = 0 ∨ rowMean (data.getD i []) = 0) :
    i ∉ reconciled data mask ∧
      ∀ idx : List ℕ, i ∉ intersect1d (reconciled data mask) idx := by
  have hnot : i ∉ reconciled data mask := by
    intro hmem
    obtain ⟨hv, -⟩ := mem_reconciled.mp hmem
    obtain ⟨-, hstd, hmean⟩ := mem_validIndices.mp hv
    rcases h with h | h
    · rw [h] at hstd
      exact lt_irrefl 0 hstd
    · exact hmean h
  exact ⟨hnot, fun idx hmem => hnot (mem_intersect1d.mp hmem).1⟩

/-- Witness for C9: the constant sample 0 of a concrete input is excluded
from the reconciled set. -/
theorem c9_witness : (0 : ℕ) ∉ reconciled [[(3:ℚ), 3], [1, 2]] none :=
  (c9_degenerate_sample_excluded [[(3:ℚ), 3], [1, 2]] none 0
    (Or.inl (of_decide_eq_true (by with_unfolding_all rfl)))).1

/-- C8: a seed array with more than one column makes the run abort, because
line 195 calls logger.WARNING, an attribute that logging.Logger does not
have (the method is logger.warning), so an AttributeError is raised instead
of a warning being logged; nothing downstream of line 195 runs. -/
theorem c8_seed_multicolumn_crashes :
    run [[(1:ℚ), 2], [3, 4]] [[1, 1], [2, 2]] none false none false =
      mkErr .attributeError := by
  with_unfolding_all rfl

/-- C1 counterexample: label 1 is a requested region (it is in
np.unique(seed)[1:]) whose intersection with the reconciled valid-sample set
is empty (its only sample has zero variance), yet the run finishes with no
error at all: the claimed fatal RegionFullyMasked error does not exist in
the per-region branch. -/
theorem c1_counterexample :
    (1:ℚ) ∈ (npUnique ([[(0:ℚ)], [1], [2]] : List (List ℚ)).flatten).drop 1 ∧
    intersect1d (reconciled [[(0:ℚ), 0], [5, 5], [1, 3]] none)
      (whereEqRows [[(0:ℚ)], [1], [2]] 1) = [] ∧
    (run [[(0:ℚ), 0], [5, 5], [1, 3]] [[0], [1], [2]] none false none false).err = none :=
  of_decide_eq_true (by with_unfolding_all rfl)

/-- C1 amended: in per-region mean mode the run never fails at the
aggregation stage: whenever the guards up to line 212 pass, the run ends
with no error, and the output row of a label is the NaN row (np.mean of an
empty selection) exactly when that label has empty intersection with the
reconciled valid-sample set; RegionFullyMasked can only come from the coarse
masked-count check of line 211. -/
theorem c1_empty_region_gives_nan_row (data seed : List (List ℚ))
    (mask : Option (List (List ℚ))) (ol : Bool) (h : guardsPass data seed mask) :
    (run data seed mask false none ol).err = none ∧
    (run data seed mask false none ol).csv =
      some (((npUnique seed.flatten).drop 1).map (fun roi =>
        npMeanRows ((intersect1d (reconciled data mask) (whereEqRows seed roi)).map
          (fun i => data.getD i [])) (shape1 data))) ∧
    ∀ roi ∈ (npUnique seed.flatten).drop 1,
      (npMeanRows ((intersect1d (reconciled data mask) (whereEqRows seed roi)).map
          (fun i => data.getD i [])) (shape1 data) = none ↔
        intersect1d (reconciled data mask) (whereEqRows seed roi) = []) := by
  rw [run_reaches_aggregate _ _ _ _ _ _ h]
  refine ⟨by simp [aggregate, finish], by simp [aggregate, finish], ?_⟩
  intro roi _
  rw [npMeanRows_eq_none_iff]
  constructor
  · intro hmp
    simpa using hmp
  · intro hmp
    simp [hmp]

/-- Witness for C1: a concrete per-region run that ends with no error. -/
theorem c1_witness :
    (run [[(1:ℚ), 2], [0, 0]] [[0], [3]] none false none false).err = none :=
  (c1_empty_region_gives_nan_row [[(1:ℚ), 2], [0, 0]] [[0], [3]] none false
    ⟨rfl, rfl⟩).1

/-- C2: in per-region mean mode, the run output has one row per resolved
region label, in the order of the resolved label list, and whenever a
label's intersection with the reconciled valid-sample set is nonempty, its
row is exactly the per-timepoint arithmetic mean of the functional array
over that intersection. -/
theorem c2_per_region_rows (data seed : List (List ℚ))
    (mask : Option (List (List ℚ))) (rl : Option ℚ) (ol : Bool)
    (h : guardsPass data seed mask)
    (hrl : ∀ r ∈ rl, r ∈ (npUnique seed.flatten).drop 1) :
    (run data seed mask false rl ol).csv =
      some ((selectedRois seed rl).map (fun roi =>
        npMeanRows ((intersect1d (reconciled data mask) (whereEqRows seed roi)).map
          (fun i => data.getD i [])) (shape1 data))) ∧
    ∀ i, i < (selectedRois seed rl).length →
      intersect1d (reconciled data mask)
          (whereEqRows seed ((selectedRois seed rl).getD i 0)) ≠ [] →
      ((run data seed mask false rl ol).csv.getD []).getD i none =
        some (arithMeanSet data
          (intersect1d (reconciled data mask)
            (whereEqRows seed ((selectedRois seed rl).getD i 0))) (shape1 data)) := by
  rw [run_reaches_aggregate _ _ _ _ _ _ h]
  have hcsv : (aggregate data seed (reconciled data mask) false rl ol).csv =
      some ((selectedRois seed rl).map (fun roi =>
        npMeanRows ((intersect1d (reconciled data mask) (whereEqRows seed roi)).map
          (fun i => data.getD i [])) (shape1 data))) := by
    cases rl with
    | none => simp [aggregate, finish, selectedRois]
    | some r =>
      have hr := hrl r (by simp)
      rw [List.drop_one] at hr
      simp [aggregate, finish, selectedRois, hr]
  refine ⟨hcsv, ?_⟩
  intro i hi hne
  rw [hcsv]
  simp only [Option.getD_some]
  rw [getD_map none _ 0 _ i (by simpa using hi)]
  exact npMeanRows_eq_arithMeanSet data _ (shape1 data) hne

/-- Witness for C2: row 0 of a concrete per-region run equals the reference
arithmetic mean over the resolved intersection. -/
theorem c2_witness :
    ((run [[(1:ℚ), 3], [5, 7]] [[0], [4]] none false none false).csv.getD []).getD 0 none =
      some (arithMeanSet [[(1:ℚ), 3], [5, 7]]
        (intersect1d (reconciled [[(1:ℚ), 3], [5, 7]] none)
          (whereEqRows [[(0:ℚ)], [4]] ((selectedRois [[(0:ℚ)], [4]] none).getD 0 0)))
        (shape1 [[(1:ℚ), 3], [5, 7]])) :=
  (c2_per_region_rows [[(1:ℚ), 3], [5, 7]] [[0], [4]] none none false
    ⟨rfl, rfl⟩ (by simp)).2 0
    (of_decide_eq_true (by with_unfolding_all rfl))
    (of_decide_eq_true (by with_unfolding_all rfl))

/-- C4 counterexample: with seed [[1],[1],[2]] and mask [[1],[0],[1]], the
number of distinct nonzero seed labels (two) equals the number of distinct
nonzero values of the seed-mask product (two), so the claim says the check
must not fire; but the code compares distinct-value counts with zero
included (len(np.unique(...))), which are 2 and 3 here, so the run aborts
with the RegionFullyMasked exit of line 212. -/
theorem c4_counterexample :
    ((npUnique ([[(1:ℚ)], [1], [2]] : List (List ℚ)).flatten).filter
        (fun v => v ≠ 0)).length =
      ((npUnique (multiply2 [[(1:ℚ)], [1], [2]] [[1], [0], [1]]).flatten).filter
        (fun v => v ≠ 0)).length ∧
    (run [[(1:ℚ), 2], [3, 4], [5, 6]] [[1], [1], [2]] (some [[1], [0], [1]])
      false none false).err = some .regionFullyMasked :=
  of_decide_eq_true (by with_unfolding_all rfl)

/-- C4 amended: when (and only when) a mask is supplied, the coarse check
fires exactly when the count of distinct values of the whole seed map (zero
included, len(np.unique(seed_data))) differs from the count of distinct
values of the elementwise seed-mask product (zero included); distinct
nonzero values are not what the code counts. -/
theorem c4_coarse_check_counts (data seed m : List (List ℚ)) (w : Bool)
    (rl : Option ℚ) (ol : Bool)
    (h1 : data.length = seed.length) (h2 : shape1 seed = 1)
    (h3 : seed.length = m.length) :
    ((run data seed (some m) w rl ol).err = some .regionFullyMasked ↔
      (npUnique (multiply2 seed m).flatten).length ≠ (npUnique seed.flatten).length) ∧
    (run data seed none w rl ol).err ≠ some .regionFullyMasked := by
  constructor
  · by_cases hc : (npUnique (multiply2 seed m).flatten).length =
        (npUnique seed.flatten).length
    · rw [run_reaches_aggregate data seed (some m) w rl ol ⟨h1, h2, h3, hc⟩]
      simp only [hc, ne_eq, not_true_eq_false, iff_false]
      exact aggregate_err_ne_regionFullyMasked _ _ _ _ _ _
    · have hrun : run data seed (some m) w rl ol = mkErr .regionFullyMasked := by
        simp [run, h1, h2, h3, hc]
      rw [hrun]
      simp [mkErr, hc]
  · unfold run
    split
    · simp [mkErr]
    · split
      · simp [mkErr]
      · exact aggregate_err_ne_regionFullyMasked _ _ _ _ _ _

/-- Witness for C4: a concrete masked run whose distinct-value counts differ
aborts with the coarse RegionFullyMasked exit. -/
theorem c4_witness :
    (run [[(1:ℚ), 2], [3, 4]] [[2], [3]] (some [[0], [0]]) false none false).err =
      some .regionFullyMasked :=
  (c4_coarse_check_counts [[(1:ℚ), 2], [3, 4]] [[2], [3]] [[0], [0]] false none false
    rfl rfl rfl).1.mpr (of_decide_eq_true (by with_unfolding_all rfl))

/-- C5 counterexample: in a seed map without background zeros, label 1 is
among the unique nonzero seed values, yet requesting it aborts with the
UnknownRegionLabel exit, because np.unique(seed_data)[1:] at line 220 drops
the smallest unique value (here the nonzero label 1), not the background. -/
theorem c5_counterexample :
    (1:ℚ) ∈ (npUnique ([[(1:ℚ)], [2]] : List (List ℚ)).flatten).filter
      (fun v => v ≠ 0) ∧
    (run [[(1:ℚ), 2], [3, 5]] [[1], [2]] none false (some 1) false).err =
      some .unknownRegionLabel :=
  of_decide_eq_true (by with_unfolding_all rfl)

/-- C5 amended: the region selector works on np.unique(seed_data)[1:], the
strictly ascending list of distinct seed values with its smallest element
removed (the background 0 only when 0 occurs in the seed): a requested
label aborts with UnknownRegionLabel exactly when it is outside that list,
and in the all-labels case that list itself (strictly ascending) is the
region label list written out. -/
theorem c5_region_selector_drops_min (data seed : List (List ℚ)) (r : ℚ)
    (h1 : data.length = seed.length) (h2 : shape1 seed = 1) :
    ((run data seed none false (some r) false).err = some .unknownRegionLabel ↔
      r ∉ (npUnique seed.flatten).drop 1) ∧
    (run data seed none false none true).labels =
      some ((npUnique seed.flatten).drop 1) ∧
    List.Pairwise (· < ·) ((npUnique seed.flatten).drop 1) := by
  refine ⟨?_, ?_, ?_⟩
  · rw [run_reaches_aggregate data seed none false (some r) false ⟨h1, h2⟩]
    by_cases hr : r ∈ (npUnique seed.flatten).drop 1
    all_goals
      have hr2 := hr
      rw [List.drop_one] at hr2
    · simp [aggregate, finish, hr, hr2]
    · simp [aggregate, mkErr, hr, hr2]
  · rw [run_reaches_aggregate data seed none false none true ⟨h1, h2⟩]
    simp [aggregate, finish]
  · exact List.Pairwise.sublist (List.drop_sublist 1 _) (npUnique_strict_sorted _)

/-- Witness for C5: requesting the absent label 5 aborts with
UnknownRegionLabel. -/
theorem c5_witness :
    (run [[(1:ℚ), 2], [3, 4]] [[0], [7]] none false (some 5) false).err =
      some .unknownRegionLabel :=
  (c5_region_selector_drops_min [[(1:ℚ), 2], [3, 4]] [[0], [7]] 5 rfl rfl).1.mpr
    (of_decide_eq_true (by with_unfolding_all rfl))

/-- When every seed row is a singleton, np.ravel of the rows selected by the
reconciled index set is the list of seed values at those indices. -/
theorem ravel_seed_rows (data seed : List (List ℚ)) (mask : Option (List (List ℚ)))
    (hlen : data.length = seed.length) (hrect : ∀ r ∈ seed, r.length = 1) :
    ((reconciled data mask).map (fun i => seed.getD i [])).flatten =
      (reconciled data mask).map (fun i => seedVal seed i) := by
  apply flatten_map_singleton
  intro i hi
  have hil : i < seed.length := hlen ▸ mem_reconciled_lt hi
  have hrow : (seed.getD i []).length = 1 := by
    refine hrect _ ?_
    rw [List.getD_eq_getElem _ _ hil]
    exact List.getElem_mem hil
  obtain ⟨a, ha⟩ := List.length_eq_one.mp hrow
  rw [seedVal, ha]
  simp

/-- C6: in weighted mode, whenever the run reaches np.average and the
selected weights do not sum to zero, the single output row is, per timepoint
independently, sum of value times weight divided by sum of weights, over
exactly the reconciled valid-sample set, with weights the seed values at
those samples. -/
theorem c6_weighted_row (data seed : List (List ℚ)) (mask : Option (List (List ℚ)))
    (rl : Option ℚ) (h : guardsPass data seed mask)
    (hrect : ∀ r ∈ seed, r.length = 1)
    (hsum : ((reconciled data mask).map (fun i => seedVal seed i)).sum ≠ 0) :
    (run data seed mask true rl false).err = none ∧
    (run data seed mask true rl false).csv =
      some [some (weightedMeanSet data seed (reconciled data mask) (shape1 data))] := by
  rw [run_reaches_aggregate _ _ _ _ _ _ h, aggregate_weighted,
    ravel_seed_rows data seed mask (guardsPass_len h) hrect, if_neg hsum]
  have hrow : npAverageRows ((reconciled data mask).map (fun i => data.getD i []))
      ((reconciled data mask).map (fun i => seedVal seed i)) (shape1 data) =
      weightedMeanSet data seed (reconciled data mask) (shape1 data) := by
    unfold npAverageRows weightedMeanSet
    congr 1
    funext t
    rw [zipWith_map_eq]
  rw [if_neg (by simp)]
  exact ⟨rfl, by rw [hrow]⟩

/-- Witness for C6: the weighted row of a concrete run equals the reference
weighted-mean formula. -/
theorem c6_witness :
    (run [[(2:ℚ), 4], [6, 8]] [[1], [3]] none true none false).csv =
      some [some (weightedMeanSet [[(2:ℚ), 4], [6, 8]] [[(1:ℚ)], [3]]
        (reconciled [[(2:ℚ), 4], [6, 8]] none) (shape1 [[(2:ℚ), 4], [6, 8]]))] :=
  (c6_weighted_row [[(2:ℚ), 4], [6, 8]] [[1], [3]] none none ⟨rfl, rfl⟩
    (of_decide_eq_true (by with_unfolding_all rfl))
    (of_decide_eq_true (by with_unfolding_all rfl))).2

/-- C7 counterexample: a strictly negative weight does not abort the run at
all: with seed weight -1 the weighted run finishes cleanly and writes the
numeric row [2, 4]; no InvalidWeights failure exists in the code. -/
theorem c7_counterexample :
    ((-1:ℚ) < 0) ∧
    run [[(2:ℚ), 4]] [[-1]] none true none false =
      ⟨some [some [2, 4]], none, none⟩ :=
  of_decide_eq_true (by with_unfolding_all rfl)

/-- C7 amended: in weighted mode the only weight-related failure is the
ZeroDivisionError np.average raises when the selected weights sum to zero
(before anything is written); whenever the weight sum is nonzero the run
finishes with no error, negative weights included. -/
theorem c7_weighted_error_behavior (data seed : List (List ℚ))
    (mask : Option (List (List ℚ))) (rl : Option ℚ) (h : guardsPass data seed mask) :
    ((run data seed mask true rl false).err = some .zeroDivisionError ↔
      (((reconciled data mask).map (fun i => seed.getD i [])).flatten).sum = 0) ∧
    ((((reconciled data mask).map (fun i => seed.getD i [])).flatten).sum = 0 →
      (run data seed mask true rl false).csv = none) ∧
    ((((reconciled data mask).map (fun i => seed.getD i [])).flatten).sum ≠ 0 →
      (run data seed mask true rl false).err = none) := by
  rw [run_reaches_aggregate _ _ _ _ _ _ h, aggregate_weighted]
  by_cases hs : (((reconciled data mask).map (fun i => seed.getD i [])).flatten).sum = 0
  · rw [if_pos hs]
    exact ⟨iff_of_true rfl hs, fun _ => rfl, fun hne => absurd hs hne⟩
  · rw [if_neg hs, if_neg (by simp)]
    exact ⟨iff_of_false (by simp) hs, fun h0 => absurd h0 hs, fun _ => rfl⟩

/-- Witness for C7: a concrete weighted run with nonzero weight sum ends
with no error. -/
theorem c7_witness :
    (run [[(2:ℚ), 4]] [[5]] none true none false).err = none :=
  (c7_weighted_error_behavior [[(2:ℚ), 4]] [[5]] none none ⟨rfl, rfl⟩).2.2
    (of_decide_eq_true (by with_unfolding_all rfl))

/-- C10: in the weighted branch rois is never assigned, so a weighted run
that reaches np.average with nonzero weight sum and was asked for an
output-labels file writes the csv (line 235), then aborts at line 237 with
the UnboundLocalError on rois; no labels content is ever written. -/
theorem c10_weighted_outputlabels_unbound (data seed : List (List ℚ))
    (mask : Option (List (List ℚ))) (rl : Option ℚ) (h : guardsPass data seed mask)
    (hsum : (((reconciled data mask).map (fun i => seed.getD i [])).flatten).sum ≠ 0) :
    (run data seed mask true rl true).err = some .unboundLocalRois ∧
    (run data seed mask true rl true).csv =
      some [some (npAverageRows ((reconciled data mask).map (fun i => data.getD i []))
        (((reconciled data mask).map (fun i => seed.getD i [])).flatten)
        (shape1 data))] ∧
    (run data seed mask true rl true).labels = none := by
  rw [run_reaches_aggregate _ _ _ _ _ _ h, aggregate_weighted, if_neg hsum,
    if_pos rfl]
  exact ⟨rfl, rfl, rfl⟩

/-- Witness for C10: a concrete weighted run with labels requested aborts on
the unassigned rois after writing the csv. -/
theorem c10_witness :
    (run [[(1:ℚ), 2]] [[2]] none true none true).err = some .unboundLocalRois :=
  (c10_weighted_outputlabels_unbound [[(1:ℚ), 2]] [[2]] none none ⟨rfl, rfl⟩
    (of_decide_eq_true (by with_unfolding_all rfl))).1

end Meants
